import Mathlib

/-!
A verification development for the rust-esp32-epaper-mqtt firmware
(src/src/main.rs).  The firmware joins a wireless network, opens a
TLS-authenticated MQTT session, listens for messages on a background
thread, hands decoded text to the main loop through an mpsc channel, and
renders each message on a Waveshare 5.83 inch e-paper panel.

The definitions below are a shallow embedding of main.rs: pure byte and
list manipulations are translated directly; the effectful parts (the MQTT
client calls, the panel driver calls, the channel) are modelled as traces
of the operations the code invokes, with machine effects (channel queue,
framebuffer) made explicit.
-/

namespace EspEpaper

/-! ## Compiled-in configuration constants (main.rs lines 42-54) -/

def WIFI_SSID : String := ""

def WIFI_PASS : String := ""

def MQTT_ENDPOINT : String := "YOUR_AWS_IOT_MQTT_ENDPOINT_HERE"

def MQTT_CLIENT_ID : String := "esp32-epaper-main"

def MQTT_TOPIC_NAME : String := "topic/sdk/test/rust"

/-! ## Wifi configuration (configure_wifi, main.rs lines 127-144)

The esp-idf AuthMethod enumeration; configure_wifi picks the None variant
literally, independent of the WIFI_PASS constant placed in the password
field. -/

inductive AuthMethod
| none
| wep
| wpa
| wpa2Personal
| wpaWpa2Personal
| wpa2Enterprise
| wpa3Personal
| wpa2Wpa3Personal
deriving DecidableEq, Repr

structure ClientConfiguration where
  ssid : String
  password : String
  auth_method : AuthMethod
deriving DecidableEq, Repr

/-- The ClientConfiguration that configure_wifi passes to
set_configuration, viewed as a function of the compiled-in passphrase
constant (main.rs lines 128-133): ssid and password are filled from the
constants, and auth_method is the literal AuthMethod::None. -/
def configure_wifi_configuration (wifi_pass : String) : ClientConfiguration :=
  ClientConfiguration.mk WIFI_SSID wifi_pass AuthMethod.none

/-! ## Certificate transform (convert_certificate, main.rs lines 215-230)

The function pushes a single 0 byte onto the owned byte vector, forgets
the allocation, and rebuilds the slice handed to X509::pem_until_nul from
the saved pointer and length; the byte sequence of that slice is the
pushed vector read back in full. -/

def convert_certificate (certificate_bytes : List Nat) : List Nat :=
  let pushed := certificate_bytes ++ [0]
  let len := pushed.length
  pushed.take len

/-! ## UTF-8 decoding (String::from_utf8 on msg.data(), main.rs line 181)

Payload bytes are Nat (each < 256 for a real payload).  utf8DecodeChar
consumes one scalar value from the front of the buffer following the
UTF-8 validity rules Rust's String::from_utf8 enforces (no overlong
forms, no surrogates, at most U+10FFFF); utf8Decode decodes a whole
buffer to its scalar-value sequence, or none when the buffer is not
valid UTF-8. -/

def isCont (b : Nat) : Bool := 0x80 ≤ b && b ≤ 0xBF

def utf8DecodeChar : Nat → List Nat → Option (Nat × List Nat)
| b, rest =>
  if b ≤ 0x7F then some (b, rest)
  else if 0xC2 ≤ b && b ≤ 0xDF then
    match rest with
    | b2 :: r2 =>
      if isCont b2 then some ((b - 0xC0) * 0x40 + (b2 - 0x80), r2) else none
    | [] => none
  else if 0xE0 ≤ b && b ≤ 0xEF then
    match rest with
    | b2 :: b3 :: r3 =>
      let okB2 :=
        if b == 0xE0 then 0xA0 ≤ b2 && b2 ≤ 0xBF
        else if b == 0xED then 0x80 ≤ b2 && b2 ≤ 0x9F
        else isCont b2
      if okB2 && isCont b3 then
        some ((b - 0xE0) * 0x1000 + (b2 - 0x80) * 0x40 + (b3 - 0x80), r3)
      else none
    | _ => none
  else if 0xF0 ≤ b && b ≤ 0xF4 then
    match rest with
    | b2 :: b3 :: b4 :: r4 =>
      let okB2 :=
        if b == 0xF0 then 0x90 ≤ b2 && b2 ≤ 0xBF
        else if b == 0xF4 then 0x80 ≤ b2 && b2 ≤ 0x8F
        else isCont b2
      if okB2 && isCont b3 && isCont b4 then
        some ((b - 0xF0) * 0x40000 + (b2 - 0x80) * 0x1000 +
              (b3 - 0x80) * 0x40 + (b4 - 0x80), r4)
      else none
    | _ => none
  else none

def utf8DecodeAux : Nat → List Nat → Option (List Nat)
| _, [] => some []
| 0, _ :: _ => none
| fuel + 1, b :: rest =>
  match utf8DecodeChar b rest with
  | none => none
  | some (c, rem) => (utf8DecodeAux fuel rem).map (fun cs => c :: cs)

/-- Embedding of String::from_utf8 over a byte buffer: the decoded
scalar-value sequence when the buffer is valid UTF-8, none otherwise. -/
def utf8Decode (bytes : List Nat) : Option (List Nat) :=
  utf8DecodeAux bytes.length bytes

/-! ## Message Listener (the spawned thread, main.rs lines 171-192)

The thread drains the connection's event stream with while-let.  Each
event is either an Err (logged, loop continues), a Received event
carrying a payload, or another Event variant (Connected, BeforeConnect,
Disconnected, ...) which the if-let ignores.  A Received payload is
decoded with String::from_utf8; on success the text is pushed into the
channel with sender.send(..).unwrap(), which panics - terminating the
thread - exactly when the receiving side of the channel has been
dropped. -/

inductive MqttEvent
| errorEvent
| otherEvent
| received (payload : List Nat)

/-- One run of the listener loop over a finite event stream.  Returns the
messages forwarded through the channel, in order, paired with true when
the loop drained the stream normally and false when it panicked on a
failed send (receiver_alive = false and a decodable payload arrived). -/
def listenerRun (receiver_alive : Bool) : List MqttEvent → List (List Nat) × Bool
| [] => ([], true)
| MqttEvent.errorEvent :: rest => listenerRun receiver_alive rest
| MqttEvent.otherEvent :: rest => listenerRun receiver_alive rest
| MqttEvent.received p :: rest =>
  match utf8Decode p with
  | none => listenerRun receiver_alive rest
  | some s =>
    if receiver_alive then
      let r := listenerRun receiver_alive rest
      (s :: r.1, r.2)
    else ([], false)

/-! ## MQTT client actions (setup_mqtt_client, main.rs lines 146-213)

After spawning the listener thread, setup_mqtt_client performs exactly
two calls on the client: subscribe(MQTT_TOPIC_NAME, QoS::AtMostOnce),
then (after a 1 s delay) publish(MQTT_TOPIC_NAME, QoS::AtMostOnce,
false, format bytes of "Hello from {MQTT_TOPIC_NAME}!"). -/

inductive QoS
| atMostOnce
| atLeastOnce
| exactlyOnce
deriving DecidableEq, Repr

inductive ClientAction
| subscribe (topic : String) (qos : QoS)
| publish (topic : String) (qos : QoS) (retain : Bool) (payload : String)
deriving DecidableEq, Repr

/-- The trace of MQTT client calls setup_mqtt_client performs before
returning, in program order (main.rs lines 194-205). -/
def setup_mqtt_client_actions : List ClientAction :=
  [ ClientAction.subscribe MQTT_TOPIC_NAME QoS.atMostOnce,
    ClientAction.publish MQTT_TOPIC_NAME QoS.atMostOnce false
      ("Hello from " ++ MQTT_TOPIC_NAME ++ "!") ]

def isSubscribe : ClientAction → Bool
| ClientAction.subscribe _ _ => true
| _ => false

/-! ## The message relay (std mpsc channel, main.rs lines 110 and 116)

The channel created on line 110 is the only synchronized boundary
between the listener thread and the main loop.  Its std contract,
forming the interface this firmware relies on: send appends to a FIFO
queue and never blocks; recv_timeout pops the front, or reports Timeout
when the queue stays empty through the window (Disconnected when the
sender is gone). -/

inductive RecvResult (α : Type)
| msg (m : α)
| timeout
| disconnected
deriving DecidableEq, Repr

def channelSend {α : Type} (queue : List α) (m : α) : List α := queue ++ [m]

def recv_timeout {α : Type} (sender_alive : Bool) :
    List α → RecvResult α × List α
| [] => (if sender_alive then RecvResult.timeout else RecvResult.disconnected, [])
| m :: rest => (RecvResult.msg m, rest)

/-- A schedule interleaving producer sends with consumer polls; the poll
timing (how many polls, and where they fall between the sends) is
arbitrary. -/
inductive RelayAction (α : Type)
| send (m : α)
| poll

/-- One schedule step on (observed messages, pending queue): a send
enqueues; a poll runs recv_timeout and appends a received message to the
observed list (a timeout leaves it unchanged). -/
def relayStep {α : Type} (st : List α × List α) : RelayAction α → List α × List α
| RelayAction.send m => (st.1, channelSend st.2 m)
| RelayAction.poll =>
  match recv_timeout true st.2 with
  | (RecvResult.msg m, q) => (st.1 ++ [m], q)
  | (_, q) => (st.1, q)

def runRelayFrom {α : Type} (st : List α × List α) :
    List (RelayAction α) → List α × List α
| [] => st
| a :: acts => runRelayFrom (relayStep st a) acts

/-- Run a schedule from an empty, freshly created channel. -/
def runRelay {α : Type} (acts : List (RelayAction α)) : List α × List α :=
  runRelayFrom ([], []) acts

/-- The messages a schedule sends, in order. -/
def sentOf {α : Type} : List (RelayAction α) → List α
| [] => []
| RelayAction.send m :: acts => m :: sentOf acts
| RelayAction.poll :: acts => sentOf acts

/-! ## Panel session and render pipeline (main.rs lines 105, 113-124, 232-242)

The panel operations main invokes, as a trace: Epd5in83::new (init) once
on line 105, then per loop iteration, when recv_timeout yielded Ok, the
render cycle display.clear(White), draw_text(.., message, 0, 0),
update_frame, display_frame. -/

inductive Color
| black
| white
deriving DecidableEq, Repr

inductive Font
| font10x20
deriving DecidableEq, Repr

inductive Baseline
| top
| bottom
| middle
| alphabetic
deriving DecidableEq, Repr

structure MonoTextStyle where
  font : Font
  text_color : Color
  background_color : Color
deriving DecidableEq, Repr

inductive PanelOp
| init
| clear (color : Color)
| drawText (text : String) (x : Int) (y : Int)
    (style : MonoTextStyle) (baseline : Baseline)
| updateFrame
| displayFrame
deriving DecidableEq, Repr

/-- Embedding of draw_text (main.rs lines 232-242) as the draw call it
issues: the style is FONT_10X20 with text_color White over
background_color Black, the text style uses Baseline::Top, and the text
is placed at Point::new(x, y). -/
def draw_text (text : String) (x y : Int) : PanelOp :=
  PanelOp.drawText text x y
    (MonoTextStyle.mk Font.font10x20 Color.white Color.black) Baseline.top

/-- Panel operations of one iteration of the main loop (main.rs lines
117-123): nothing when recv_timeout returned Err (timeout or
disconnect), otherwise the clear/draw/update/display render cycle. -/
def cycleOps : RecvResult String → List PanelOp
| RecvResult.msg m =>
  [ PanelOp.clear Color.white, draw_text m 0 0,
    PanelOp.updateFrame, PanelOp.displayFrame ]
| RecvResult.timeout => []
| RecvResult.disconnected => []

def mainLoopOps : List (RecvResult String) → List PanelOp
| [] => []
| p :: polls => cycleOps p ++ mainLoopOps polls

/-- The full panel-operation trace of main (main.rs lines 105-124): the
one-time init of line 105 followed by the loop's operations, for a given
finite sequence of recv_timeout results. -/
def mainTrace (polls : List (RecvResult String)) : List PanelOp :=
  PanelOp.init :: mainLoopOps polls

def isInit : PanelOp → Bool
| PanelOp.init => true
| _ => false

/-! ## Render-cycle error flow (main.rs lines 119-122, 241)

clear, update_frame and display_frame are fallible and propagated with
the question-mark operator; draw_text discards the Result of
Drawable::draw with a wildcard let and returns unit, so its outcome
cannot influence the cycle. -/

structure EspError where
  code : Int
deriving DecidableEq, Repr

structure DrawError where
  code : Int
deriving DecidableEq, Repr

/-- Embedding of the tail of draw_text (main.rs line 241): the Result of
the underlying Text::draw call is bound to a wildcard and dropped, and
the function returns unit. -/
def draw_text_result (draw_outcome : Except DrawError (Int × Int)) : Unit :=
  let _ := draw_outcome
  ()

/-- Error flow of one render cycle (main.rs lines 119-122), parametrized
by the outcomes of the four panel operations: clear, update_frame and
display_frame short-circuit with the question-mark operator, while the
draw outcome passes through draw_text_result. -/
def render_cycle_result (clear_r : Except EspError Unit)
    (draw_r : Except DrawError (Int × Int))
    (update_r : Except EspError Unit)
    (display_r : Except EspError Unit) : Except EspError Unit :=
  match clear_r with
  | Except.error e => Except.error e
  | Except.ok _ =>
    let _u : Unit := draw_text_result draw_r
    match update_r with
    | Except.error e => Except.error e
    | Except.ok _ => display_r

/-! ## Theorems -/

/-- C2: for every input byte buffer B, convert_certificate produces the
byte sequence whose last byte is the single appended zero terminator,
whose bytes before that terminator are exactly the bytes of B unchanged
in content and order, and whose length is one more than B's.  (The
original allocation is leaked via mem::forget in the source; the slice
modelled here aliases it for the remaining process lifetime.) -/
theorem C2_convert_certificate (B : List Nat) :
    (convert_certificate B).getLast? = some 0 ∧
    (convert_certificate B).dropLast = B ∧
    (convert_certificate B).length = B.length + 1 := by
  have htake : List.take (B.length + 1) (B ++ [0]) = B ++ [0] :=
    List.take_of_length_le (by simp)
  refine ⟨?_, ?_, ?_⟩ <;>
    simp [convert_certificate, htake, List.getLast?_concat, List.dropLast_concat]

/-- C4: whenever the main loop receives a message m, the render cycle it
performs is, in order: clear the framebuffer to White, draw the text m
at the origin Point::new(0, 0) with Baseline::Top in FONT_10X20 with
White glyphs on a Black background (inverted relative to the White
clear), then update_frame, then display_frame. -/
theorem C4_render_cycle_order (m : String) (polls : List (RecvResult String)) :
    mainLoopOps (RecvResult.msg m :: polls) =
      PanelOp.clear Color.white ::
      PanelOp.drawText m 0 0
        (MonoTextStyle.mk Font.font10x20 Color.white Color.black) Baseline.top ::
      PanelOp.updateFrame :: PanelOp.displayFrame :: mainLoopOps polls := rfl

/-- C6: in a loop cycle where the channel queue is empty throughout the
receive window, recv_timeout reports a timeout with the queue unchanged,
the cycle invokes none of the panel operations, and consequently any
state the panel operations could affect (framebuffer, panel) is left
unchanged by that cycle. -/
theorem C6_idle_cycle (σ : Type) (applyOp : σ → PanelOp → σ) (s : σ)
    (polls : List (RecvResult String)) :
    recv_timeout true ([] : List String) = (RecvResult.timeout, []) ∧
    cycleOps RecvResult.timeout = [] ∧
    List.foldl applyOp s (cycleOps RecvResult.timeout) = s ∧
    mainLoopOps (RecvResult.timeout :: polls) = mainLoopOps polls :=
  ⟨rfl, rfl, rfl, rfl⟩

/-- C7: setup_mqtt_client performs exactly one subscribe call, to
MQTT_TOPIC_NAME at QoS AtMostOnce, before it returns, and afterwards
exactly one publish on that same topic whose payload is the greeting
string "Hello from topic/sdk/test/rust!"; the subscribe precedes the
publish in the action trace. -/
theorem C7_bootstrap_subscribe_then_publish :
    setup_mqtt_client_actions =
      [ ClientAction.subscribe MQTT_TOPIC_NAME QoS.atMostOnce,
        ClientAction.publish MQTT_TOPIC_NAME QoS.atMostOnce false
          "Hello from topic/sdk/test/rust!" ] ∧
    setup_mqtt_client_actions.countP isSubscribe = 1 :=
  ⟨rfl, rfl⟩

/-- C9: configure_wifi always fills the auth_method field of the client
configuration with the literal AuthMethod::None, so the compiled-in
passphrase constant has no effect on the authentication method: the
field is None for every value of the passphrase, and in particular for
the actual WIFI_PASS constant. -/
theorem C9_wifi_auth_method_none (p q : String) :
    (configure_wifi_configuration p).auth_method = AuthMethod.none ∧
    (configure_wifi_configuration p).auth_method =
      (configure_wifi_configuration q).auth_method ∧
    (configure_wifi_configuration WIFI_PASS).auth_method = AuthMethod.none :=
  ⟨rfl, rfl, rfl⟩

/-- C10: draw_text never reports failure to its caller: it returns unit
for every outcome of the underlying glyph draw, the render cycle's
result is insensitive to that outcome, and a cycle whose clear,
update_frame and display_frame all succeed returns Ok even when the
glyph draw failed - so a render cycle can only fail in clear,
update_frame or display_frame. -/
theorem C10_draw_text_discards_errors (c : Except EspError Unit)
    (d e : Except DrawError (Int × Int)) (u v : Except EspError Unit) :
    draw_text_result d = () ∧
    render_cycle_result c d u v = render_cycle_result c e u v ∧
    render_cycle_result (Except.ok ()) d (Except.ok ()) (Except.ok ()) =
      Except.ok () := by
  refine ⟨rfl, ?_, rfl⟩
  cases c <;> rfl

/-- C1: for every inbound Received event carrying payload P, while the
relay's receiving side is alive: if P is valid UTF-8 the listener
forwards exactly one message, equal to the UTF-8 decoding of P, through
the channel and then continues with the remaining events; if P is not
valid UTF-8 it forwards nothing and continues with the remaining events
exactly as if the event had not occurred (no termination). -/
theorem C1_listener_forwarding (P : List Nat) (rest : List MqttEvent) :
    (∀ s, utf8Decode P = some s →
      listenerRun true (MqttEvent.received P :: rest) =
        (s :: (listenerRun true rest).1, (listenerRun true rest).2)) ∧
    (utf8Decode P = none →
      listenerRun true (MqttEvent.received P :: rest) =
        listenerRun true rest) := by
  constructor
  · intro s hs
    simp [listenerRun, hs]
  · intro h
    simp [listenerRun, h]

/-- Witness for C1 at concrete inputs: the payload [72, 105] is valid
UTF-8 (the text "Hi") and is forwarded as the single message; the
payload [255] is not valid UTF-8 and nothing is forwarded, the loop
draining the stream normally in both cases. -/
theorem C1_witness :
    listenerRun true [MqttEvent.received [72, 105]] = ([[72, 105]], true) ∧
    listenerRun true [MqttEvent.received [255]] = ([], true) := by
  constructor
  · have h := (C1_listener_forwarding [72, 105] []).1 [72, 105] (by decide)
    simpa [listenerRun] using h
  · have h := (C1_listener_forwarding [255] []).2 (by decide)
    simpa [listenerRun] using h

/-- C8: when the relay's receiving side has been destroyed, the first
successfully decoded payload makes the forwarding call fail and the
unwrap panic: the listener terminates with no message forwarded and,
whatever events remain in the stream, none of them is processed (the
result does not depend on rest). -/
theorem C8_listener_send_failure_fatal (P s : List Nat)
    (rest : List MqttEvent) (h : utf8Decode P = some s) :
    listenerRun false (MqttEvent.received P :: rest) = ([], false) := by
  simp [listenerRun, h]

/-- Witness for C8 at a concrete input: with the receiver gone, the
valid payload [72] makes the listener panic at once, so the following
Received event is never processed. -/
theorem C8_witness :
    listenerRun false
      [MqttEvent.received [72], MqttEvent.received [105]] = ([], false) :=
  C8_listener_send_failure_fatal [72] [72]
    [MqttEvent.received [105]] (by decide)

/-- Helper: running any schedule preserves the relay invariant that the
messages observed so far followed by the pending queue equal the initial
contents followed by everything sent by the schedule. -/
theorem runRelayFrom_invariant {α : Type} (acts : List (RelayAction α)) :
    ∀ obs q : List α,
      (runRelayFrom (obs, q) acts).1 ++ (runRelayFrom (obs, q) acts).2 =
        obs ++ q ++ sentOf acts := by
  induction acts with
  | nil => intro obs q; simp [runRelayFrom, sentOf]
  | cons a acts ih =>
    intro obs q
    cases a with
    | send m =>
      have h := ih obs (q ++ [m])
      simpa [runRelayFrom, relayStep, channelSend, sentOf] using h
    | poll =>
      cases q with
      | nil =>
        have h := ih obs []
        simpa [runRelayFrom, relayStep, recv_timeout, sentOf] using h
      | cons m rest =>
        have h := ih (obs ++ [m]) rest
        simpa [runRelayFrom, relayStep, recv_timeout, sentOf] using h

/-- Helper: polling at least as many times as the queue is long drains
the whole queue into the observed list, in order. -/
theorem runRelayFrom_drain {α : Type} :
    ∀ (n : Nat) (obs q : List α), q.length ≤ n →
      runRelayFrom (obs, q) (List.replicate n RelayAction.poll) =
        (obs ++ q, []) := by
  intro n
  induction n with
  | zero =>
    intro obs q h
    have hq : q = [] := List.eq_nil_of_length_eq_zero (Nat.le_zero.mp h)
    simp [hq, runRelayFrom]
  | succ n ih =>
    intro obs q h
    cases q with
    | nil =>
      have h2 := ih obs [] (by simp)
      simpa [List.replicate_succ, runRelayFrom, relayStep, recv_timeout] using h2
    | cons m rest =>
      have h2 := ih (obs ++ [m]) rest (by simpa using Nat.le_of_succ_le_succ h)
      simpa [List.replicate_succ, runRelayFrom, relayStep, recv_timeout] using h2

/-- Helper: running a concatenation of schedules runs them in turn. -/
theorem runRelayFrom_append {α : Type} (as bs : List (RelayAction α)) :
    ∀ st : List α × List α,
      runRelayFrom st (as ++ bs) = runRelayFrom (runRelayFrom st as) bs := by
  induction as with
  | nil => intro st; rfl
  | cons a as ih => intro st; simp [runRelayFrom, ih]

/-- C5: for any schedule of sends interleaved with consumer polls - the
poll timing is arbitrary - the messages the consumer has observed,
followed by those still pending in the queue, are exactly the messages
sent, in sending order: no duplication, no loss, no reordering.  In
particular, once the consumer polls at least as many more times as the
queue is long, it has observed exactly the sent sequence (so any
M1, M2, M3 sent in that order are observed as M1, M2, M3). -/
theorem C5_relay_fifo (α : Type) (acts : List (RelayAction α)) :
    (runRelay acts).1 ++ (runRelay acts).2 = sentOf acts ∧
    (runRelay (acts ++
        List.replicate (runRelay acts).2.length RelayAction.poll)).1 =
      sentOf acts := by
  have hinv : (runRelay acts).1 ++ (runRelay acts).2 = sentOf acts := by
    simpa [runRelay] using runRelayFrom_invariant acts [] []
  refine ⟨hinv, ?_⟩
  rw [runRelay, runRelayFrom_append]
  have hrun : runRelayFrom (([], []) : List α × List α) acts = runRelay acts := rfl
  rw [hrun]
  have hdrain := runRelayFrom_drain (runRelay acts).2.length
    (runRelay acts).1 (runRelay acts).2 (Nat.le_refl _)
  rw [show ((runRelay acts).1, (runRelay acts).2) = runRelay acts from rfl] at hdrain
  rw [hdrain]
  exact hinv

/-- Helper: the loop body never emits an init operation; Epd5in83::new is
called once before the loop only. -/
theorem mainLoopOps_no_init (polls : List (RecvResult String)) :
    (mainLoopOps polls).countP isInit = 0 := by
  induction polls with
  | nil => rfl
  | cons p polls ih =>
    cases p <;>
      simp [mainLoopOps, cycleOps, draw_text, isInit, List.countP_cons, ih]

/-- Helper: within the loop body trace, every displayFrame is at a
positive position and immediately preceded by updateFrame, because the
only cycle shape that emits displayFrame is clear/draw/update/display. -/
theorem mainLoopOps_display_preceded (polls : List (RecvResult String)) :
    ∀ i, (mainLoopOps polls)[i]? = some PanelOp.displayFrame →
      1 ≤ i ∧ (mainLoopOps polls)[i - 1]? = some PanelOp.updateFrame := by
  induction polls with
  | nil => intro i h; simp [mainLoopOps] at h
  | cons p polls ih =>
    cases p with
    | timeout => simpa [mainLoopOps, cycleOps] using ih
    | disconnected => simpa [mainLoopOps, cycleOps] using ih
    | msg m =>
      intro i h
      rcases i with (_ | (_ | (_ | (_ | n))))
      · simp [mainLoopOps, cycleOps, draw_text] at h
      · simp [mainLoopOps, cycleOps, draw_text] at h
      · simp [mainLoopOps, cycleOps, draw_text] at h
      · exact ⟨by omega, by simp [mainLoopOps, cycleOps, draw_text]⟩
      · have h0 : (mainLoopOps polls)[n]? = some PanelOp.displayFrame := by
          simpa [mainLoopOps, cycleOps, draw_text] using h
        obtain ⟨h1, h2⟩ := ih n h0
        obtain ⟨k, rfl⟩ : ∃ k, n = k + 1 := ⟨n - 1, by omega⟩
        refine ⟨by omega, ?_⟩
        have h3 : (mainLoopOps polls)[k]? = some PanelOp.updateFrame := by
          simpa using h2
        simpa [mainLoopOps, cycleOps, draw_text] using h3

/-- C3: in every execution trace of the main control loop, init occurs
exactly once (Epd5in83::new, before the loop), displayFrame is never
invoked without the immediately preceding updateFrame of the same render
cycle, and updateFrame is only ever invoked after the init has
completed. -/
theorem C3_panel_state_machine (polls : List (RecvResult String)) :
    (mainTrace polls).countP isInit = 1 ∧
    (∀ i, (mainTrace polls)[i]? = some PanelOp.displayFrame →
      1 ≤ i ∧ (mainTrace polls)[i - 1]? = some PanelOp.updateFrame) ∧
    (∀ i, (mainTrace polls)[i]? = some PanelOp.updateFrame →
      ∃ j : Nat, j < i ∧ (mainTrace polls)[j]? = some PanelOp.init) := by
  refine ⟨?_, ?_, ?_⟩
  · simp [mainTrace, List.countP_cons, isInit, mainLoopOps_no_init polls]
  · intro i h
    rcases i with (_ | n)
    · simp [mainTrace] at h
    · have h0 : (mainLoopOps polls)[n]? = some PanelOp.displayFrame := by
        simpa [mainTrace] using h
      obtain ⟨h1, h2⟩ := mainLoopOps_display_preceded polls n h0
      obtain ⟨k, rfl⟩ : ∃ k, n = k + 1 := ⟨n - 1, by omega⟩
      refine ⟨by omega, ?_⟩
      have h3 : (mainLoopOps polls)[k]? = some PanelOp.updateFrame := by
        simpa using h2
      simpa [mainTrace] using h3
  · intro i h
    rcases i with (_ | n)
    · simp [mainTrace] at h
    · exact ⟨0, by omega, by simp [mainTrace]⟩

/-- Witness for C3 at a concrete input: with one received message "hi",
the trace is init, clear, draw, update, display; init is counted once,
the displayFrame at index 4 is preceded at index 3 by updateFrame, and
the updateFrame at index 3 has init before it. -/
theorem C3_witness :
    (mainTrace [RecvResult.msg "hi"]).countP isInit = 1 ∧
    (1 ≤ 4 ∧ (mainTrace [RecvResult.msg "hi"])[4 - 1]? =
      some PanelOp.updateFrame) ∧
    (∃ j : Nat, j < 3 ∧ (mainTrace [RecvResult.msg "hi"])[j]? =
      some PanelOp.init) :=
  ⟨(C3_panel_state_machine [RecvResult.msg "hi"]).1,
   (C3_panel_state_machine [RecvResult.msg "hi"]).2.1 4 rfl,
   (C3_panel_state_machine [RecvResult.msg "hi"]).2.2 3 rfl⟩

end EspEpaper
